import Mathlib

/-!
Verification of the heuristic project-analysis and README-assembly pipeline
of the readme-generator repository (src/tools.py).

Python strings are modelled as `List Char` (a Python `str` is a sequence of
code points).  Network responses are modelled by explicit oracle functions
passed as parameters: an oracle maps (branch, filename) to `Option` content,
`none` standing for a non-200 response or a request failure.  Regex searches
(`re.findall`) are modelled by explicit left-to-right scanners that mirror
the concrete patterns appearing in the source.
-/

namespace RG

/-- Python `str` as a sequence of code points. -/
abbrev Str := List Char

/-- The single-quote character (code point 39). -/
def squote : Char := Char.ofNat 39

/-- The double-quote character (code point 34). -/
def dquote : Char := Char.ofNat 34

/-- The newline character (code point 10). -/
def nlc : Char := Char.ofNat 10

/-- The slash character (code point 47). -/
def slashc : Char := Char.ofNat 47

/-- Python `s.lower()` (per-code-point lowering; exact for the ASCII data
the pipeline matches on). -/
def lower (s : Str) : Str := s.map Char.toLower

/-- Python `s.upper()` restricted to the ASCII method names it is applied to. -/
def upperStr (s : Str) : Str := s.map Char.toUpper

/-- Python `needle in haystack` (substring test). -/
def hasSub (n : Str) : Str → Bool
  | [] => n.isEmpty
  | s@(_ :: rest) => n.isPrefixOf s || hasSub n rest

/-- Python `s.split(c)` for a one-character separator: splits on every
occurrence, keeping empty chunks (`"".split(c) == [""]`). -/
def splitOnChar (c : Char) : Str → List Str
  | [] => [[]]
  | x :: xs =>
    match splitOnChar c xs with
    | [] => [[]]
    | h :: t => if x = c then [] :: h :: t else (x :: h) :: t

/-- Python `s.strip()`: drop leading and trailing whitespace. -/
def strip (s : Str) : Str :=
  ((s.dropWhile Char.isWhitespace).reverse.dropWhile Char.isWhitespace).reverse

/-- `sep.join(parts)` for a one-character separator. -/
def joinSep (c : Char) : List Str → Str
  | [] => []
  | [x] => x
  | x :: y :: ys => x ++ c :: joinSep c (y :: ys)

/-- `", ".join(parts)` (used for the endpoint-method summary feature). -/
def joinCommaSpace : List Str → Str
  | [] => []
  | [x] => x
  | x :: y :: ys => x ++ ", ".data ++ joinCommaSpace (y :: ys)

/-- Concatenation of a list of strings. -/
def concatAll : List Str → Str
  | [] => []
  | x :: xs => x ++ concatAll xs

/-- Match a literal at the head of the input; on success return the rest. -/
def dropPre (p s : Str) : Option Str :=
  if p.isPrefixOf s then some (s.drop p.length) else none

/-- A regex `\w` word character (ASCII reading: alphanumeric or underscore). -/
def isWordChar (c : Char) : Bool := c.isAlphanum || c = '_'

/-- Generic `re.findall` driver: scan left to right, at each position try
the pattern matcher `t`; on a match, emit its capture and resume after the
matched text, otherwise advance one character.  All matchers used below
consume at least one character, so fuel = input length is exact. -/
def scanWith {α : Type} (t : Str → Option (α × Str)) : Nat → Str → List α
  | 0, _ => []
  | _, [] => []
  | fuel+1, s@(_ :: rest) =>
    match t s with
    | some (a, rem) => a :: scanWith t fuel rem
    | none => scanWith t fuel rest

/-- Run a scanner over a whole string. -/
def runScan {α : Type} (t : Str → Option (α × Str)) (s : Str) : List α :=
  scanWith t s.length s

/-- One attempt of the Flask route pattern
`@app\.route\(['"]([^'"]+)['"]` at the head of the input: literal
`@app.route(`, an opening quote, a nonempty greedy run of non-quote
characters (the capture), and a closing quote. -/
def tryRoute (s : Str) : Option (Str × Str) :=
  match dropPre "@app.route(".data s with
  | none => none
  | some r1 =>
    match r1 with
    | [] => none
    | q :: r2 =>
      if q = squote || q = dquote then
        let cap := r2.takeWhile (fun c => c ≠ squote && c ≠ dquote)
        if cap.isEmpty then none
        else
          match r2.drop cap.length with
          | q2 :: r3 => if q2 = squote || q2 = dquote then some (cap, r3) else none
          | [] => none
      else none

/-- Shared tail of the method-call endpoint patterns: after the `app.`
prefix, one of `get( post( put( delete(`, then a quoted nonempty path. -/
def tryMethodCallTail (r : Str) : Option ((Str × Str) × Str) :=
  let pick : Option (Str × Str) :=
    match dropPre "get(".data r with
    | some r2 => some ("get".data, r2)
    | none =>
      match dropPre "post(".data r with
      | some r2 => some ("post".data, r2)
      | none =>
        match dropPre "put(".data r with
        | some r2 => some ("put".data, r2)
        | none =>
          match dropPre "delete(".data r with
          | some r2 => some ("delete".data, r2)
          | none => none
  match pick with
  | none => none
  | some (m, r2) =>
    match r2 with
    | [] => none
    | q :: r3 =>
      if q = squote || q = dquote then
        let cap := r3.takeWhile (fun c => c ≠ squote && c ≠ dquote)
        if cap.isEmpty then none
        else
          match r3.drop cap.length with
          | q2 :: r4 => if q2 = squote || q2 = dquote then some ((m, cap), r4) else none
          | [] => none
      else none

/-- FastAPI endpoint pattern `@app\.(get|post|put|delete)\(['"]([^'"]+)['"]`. -/
def tryFastapiEp (s : Str) : Option ((Str × Str) × Str) :=
  match dropPre "@app.".data s with
  | none => none
  | some r => tryMethodCallTail r

/-- Express endpoint pattern `app\.(get|post|put|delete)\(['"]([^'"]+)['"]`. -/
def tryExpressEp (s : Str) : Option ((Str × Str) × Str) :=
  match dropPre "app.".data s with
  | none => none
  | some r => tryMethodCallTail r

/-- Shared shape of `class\s+(\w+)` and `def\s+(\w+)`: keyword, one or more
whitespace characters, then a nonempty word-character run (the capture). -/
def tryKeywordName (kw : Str) (s : Str) : Option (Str × Str) :=
  match dropPre kw s with
  | none => none
  | some r1 =>
    let ws := r1.takeWhile Char.isWhitespace
    if ws.isEmpty then none
    else
      let r2 := r1.drop ws.length
      let w := r2.takeWhile isWordChar
      if w.isEmpty then none else some (w, r2.drop w.length)

/-- `class\s+(\w+)`. -/
def tryClass (s : Str) : Option (Str × Str) := tryKeywordName "class".data s

/-- `def\s+(\w+)`. -/
def tryDef (s : Str) : Option (Str × Str) := tryKeywordName "def".data s

/-- The tail `from\s+['"][^'"]+['"]` of the JS import pattern, tried at a
fixed offset. -/
def matchFromPart (t : Str) : Option Str :=
  match dropPre "from".data t with
  | none => none
  | some t1 =>
    let ws := t1.takeWhile Char.isWhitespace
    if ws.isEmpty then none
    else
      match t1.drop ws.length with
      | [] => none
      | q :: t2 =>
        if q = squote || q = dquote then
          let cap := t2.takeWhile (fun c => c ≠ squote && c ≠ dquote)
          if cap.isEmpty then none
          else
            match t2.drop cap.length with
            | q2 :: t3 => if q2 = squote || q2 = dquote then some t3 else none
            | [] => none
        else none

/-- Greedy `.*` backtracking: try the `from…` tail at the largest offset
inside the current line first, then smaller offsets. -/
def searchBack (rest : Str) : Nat → Option Str
  | 0 => matchFromPart rest
  | k+1 =>
    match matchFromPart (rest.drop (k+1)) with
    | some rem => some rem
    | none => searchBack rest k

/-- JS import alternative `import.*from\s+['"][^'"]+['"]` (`.*` cannot cross
a newline; the `from…` tail itself may).  Returns matched text and rest. -/
def tryImportFrom (s : Str) : Option (Str × Str) :=
  match dropPre "import".data s with
  | none => none
  | some rest =>
    let maxK := (rest.takeWhile (fun c => c ≠ nlc)).length
    match searchBack rest maxK with
    | none => none
    | some rem => some (s.take (s.length - rem.length), rem)

/-- JS require alternative `require\(['"][^'"]+['"]`. -/
def tryRequire (s : Str) : Option (Str × Str) :=
  match dropPre "require(".data s with
  | none => none
  | some r1 =>
    match r1 with
    | [] => none
    | q :: r2 =>
      if q = squote || q = dquote then
        let cap := r2.takeWhile (fun c => c ≠ squote && c ≠ dquote)
        if cap.isEmpty then none
        else
          match r2.drop cap.length with
          | q2 :: r3 =>
            if q2 = squote || q2 = dquote then
              some (s.take (s.length - r3.length), r3)
            else none
          | [] => none
      else none

/-- Full JS import pattern `(?:import.*from\s+['"][^'"]+['"]|require\(['"][^'"]+['"])`
(no capture group, so `findall` yields the whole matched text). -/
def tryJsImport (s : Str) : Option (Str × Str) :=
  match tryImportFrom s with
  | some r => some r
  | none => tryRequire s

/-- JS function-name pattern
`(?:function\s+(\w+)|const\s+(\w+)\s*=\s*(?:\([^)]*\)\s*=>|\w+))`,
returning the captured name. -/
def tryJsFunction (s : Str) : Option (Str × Str) :=
  match tryKeywordName "function".data s with
  | some r => some r
  | none =>
    match dropPre "const".data s with
    | none => none
    | some r1 =>
      let ws := r1.takeWhile Char.isWhitespace
      if ws.isEmpty then none
      else
        let r2 := r1.drop ws.length
        let w := r2.takeWhile isWordChar
        if w.isEmpty then none
        else
          let r3 := (r2.drop w.length).dropWhile Char.isWhitespace
          match r3 with
          | [] => none
          | e :: r4 =>
            if e = '=' then
              let r5 := r4.dropWhile Char.isWhitespace
              let arrow : Option Str :=
                match r5 with
                | '(' :: r6 =>
                  let args := r6.takeWhile (fun c => c ≠ ')')
                  match r6.drop args.length with
                  | ')' :: r7 =>
                    match dropPre "=>".data (r7.dropWhile Char.isWhitespace) with
                    | some r8 => some r8
                    | none => none
                  | _ => none
                | _ => none
              match arrow with
              | some r8 => some (w, r8)
              | none =>
                let w2 := r5.takeWhile isWordChar
                if w2.isEmpty then none else some (w, r5.drop w2.length)
            else none

/-- Methods summary pattern `- (GET|POST|PUT|DELETE) [^\n]+` of
`extract_project_features`; with a single capture group, `re.findall`
returns only the method name. -/
def tryMethodLine (s : Str) : Option (Str × Str) :=
  match dropPre "- ".data s with
  | none => none
  | some r1 =>
    let pick : Option (Str × Str) :=
      match dropPre "GET ".data r1 with
      | some r2 => some ("GET".data, r2)
      | none =>
        match dropPre "POST ".data r1 with
        | some r2 => some ("POST".data, r2)
        | none =>
          match dropPre "PUT ".data r1 with
          | some r2 => some ("PUT".data, r2)
          | none =>
            match dropPre "DELETE ".data r1 with
            | some r2 => some ("DELETE".data, r2)
            | none => none
    match pick with
    | none => none
    | some (m, r2) =>
      let run := r2.takeWhile (fun c => c ≠ nlc)
      if run.isEmpty then none else some (m, r2.drop run.length)

/-- The dictionary returned by each per-file detector
(`analyze_python_code` / `analyze_js_code`): seven list-valued keys. -/
structure DetectorRecord where
  main_functionality : List Str
  key_classes : List Str
  key_functions : List Str
  imports : List Str
  entry_points : List Str
  apis_endpoints : List Str
  cli_commands : List Str
deriving DecidableEq, Repr

/-- `analyze_python_code(content, filename)` from src/tools.py. -/
def analyze_python_code (content : Str) (filename : Str) : DetectorRecord :=
  let low := lower content
  { main_functionality :=
      (if hasSub "flask".data low then ["Flask web application".data] else []) ++
      (if hasSub "fastapi".data low then ["FastAPI web service".data] else []) ++
      (if hasSub "django".data low then ["Django web application".data] else []) ++
      (if hasSub "argparse".data low || hasSub "click".data low then
        ["Command-line interface tool".data] else []) ++
      (if hasSub "pandas".data low || hasSub "numpy".data low ||
          hasSub "sklearn".data low || hasSub "tensorflow".data low ||
          hasSub "pytorch".data low then
        ["Data science/Machine learning project".data] else [])
    key_classes := (runScan tryClass content).take 5
    key_functions := (runScan tryDef content).take 10
    imports :=
      (((splitOnChar nlc content).map strip).filter
        (fun l => "import ".data.isPrefixOf l || "from ".data.isPrefixOf l)).take 10
    entry_points :=
      if hasSub ("if __name__ == ".data ++ [dquote] ++ "__main__".data ++ [dquote]) content
      then [filename ++ " (main script)".data] else []
    apis_endpoints :=
      (if hasSub "flask".data low then
        (runScan tryRoute content).map (fun route => "GET/POST ".data ++ route) else []) ++
      (if hasSub "fastapi".data low then
        (runScan tryFastapiEp content).map
          (fun mp => upperStr mp.1 ++ " ".data ++ mp.2) else [])
    cli_commands := [] }

/-- `analyze_js_code(content, filename)` from src/tools.py. -/
def analyze_js_code (content : Str) (_filename : Str) : DetectorRecord :=
  let low := lower content
  { main_functionality :=
      (if hasSub "express".data low then ["Express.js web server".data] else []) ++
      (if hasSub "react".data low then ["React application".data] else []) ++
      (if hasSub "vue".data low then ["Vue.js application".data] else []) ++
      (if hasSub "angular".data low then ["Angular application".data] else [])
    key_classes := (runScan tryClass content).take 5
    key_functions := (runScan tryJsFunction content).take 10
    imports := (runScan tryJsImport content).take 10
    entry_points := []
    apis_endpoints :=
      if hasSub "express".data low then
        (runScan tryExpressEp content).map (fun mp => upperStr mp.1 ++ " ".data ++ mp.2)
      else []
    cli_commands := [] }

/-- The cumulative `analysis` dictionary of `analyze_code_content`
(the detectors' seven keys plus `project_structure`, which is never
written after initialisation). -/
structure CodeAnalysis where
  main_functionality : List Str
  key_classes : List Str
  key_functions : List Str
  imports : List Str
  project_structure : List Str
  entry_points : List Str
  apis_endpoints : List Str
  cli_commands : List Str
deriving DecidableEq, Repr

/-- The initial `analysis` dictionary (all lists empty). -/
def emptyAnalysis : CodeAnalysis :=
  { main_functionality := [], key_classes := [], key_functions := [], imports := []
    project_structure := [], entry_points := [], apis_endpoints := [], cli_commands := [] }

/-- `analysis.update(detector_dict)`: Python `dict.update` replaces the
value of every key present in the argument, so all seven detector keys are
overwritten; only `project_structure` is kept from the accumulator. -/
def updateMerge (acc : CodeAnalysis) (r : DetectorRecord) : CodeAnalysis :=
  { main_functionality := r.main_functionality
    key_classes := r.key_classes
    key_functions := r.key_functions
    imports := r.imports
    project_structure := acc.project_structure
    entry_points := r.entry_points
    apis_endpoints := r.apis_endpoints
    cli_commands := r.cli_commands }

/-- Modelled from the spec: the Data-Model section describes the merge as
append-only sequence concatenation per field ("no dedup, no overwrite").
This definition follows the spec's words, for comparison with `updateMerge`. -/
def appendMerge (acc : CodeAnalysis) (r : DetectorRecord) : CodeAnalysis :=
  { main_functionality := acc.main_functionality ++ r.main_functionality
    key_classes := acc.key_classes ++ r.key_classes
    key_functions := acc.key_functions ++ r.key_functions
    imports := acc.imports ++ r.imports
    project_structure := acc.project_structure
    entry_points := acc.entry_points ++ r.entry_points
    apis_endpoints := acc.apis_endpoints ++ r.apis_endpoints
    cli_commands := acc.cli_commands ++ r.cli_commands }

/-- One entry of the GitHub contents listing (fields `type` and `name`). -/
structure FileEntry where
  entryType : Str
  name : Str
deriving DecidableEq, Repr

/-- The fixed priority list of conventional entry-point filenames. -/
def priorityNames : List Str :=
  ["main.py".data, "app.py".data, "index.js".data, "main.js".data, "server.js".data,
   "index.ts".data, "main.rs".data, "lib.rs".data, "main.go".data, "main.cpp".data,
   "main.c".data, "app.js".data]

/-- The fixed tuple of recognised source extensions. -/
def sourceExts : List Str :=
  [".py".data, ".js".data, ".ts".data, ".rs".data, ".go".data,
   ".java".data, ".cpp".data, ".c".data]

/-- `name.endswith(('.py', '.js', …))` on the lowercased name. -/
def hasSourceExt (n : Str) : Bool := sourceExts.any (fun e => e.isSuffixOf n)

/-- Candidate selection of `analyze_code_content`: priority names are
pushed to the front with `insert(0, …)`, other recognised source files are
appended; non-file entries are skipped. -/
def selectKeyFiles (contents : List FileEntry) : List FileEntry :=
  contents.foldl
    (fun acc item =>
      if item.entryType = "file".data then
        let n := lower item.name
        if n ∈ priorityNames then item :: acc
        else if hasSourceExt n then acc ++ [item]
        else acc
      else acc)
    []

/-- Per-candidate content fetch of `analyze_code_content`: try branch
`main`, and on failure branch `master`.  The oracle maps (branch, filename)
to `Option` content; `none` is a non-200 response or request failure. -/
def fetchContent (oracle : Str → Str → Option Str) (name : Str) : Option Str :=
  match oracle "main".data name with
  | some c => some c
  | none => oracle "master".data name

/-- Modelled from the spec: §4.2 says content is fetched "trying the
default branch then falling back to master"; `db` is the repository's
declared default branch.  For comparison with `fetchContent`. -/
def fetchContentClaim (db : Str) (oracle : Str → Str → Option Str) (name : Str) : Option Str :=
  match oracle db name with
  | some c => some c
  | none => oracle "master".data name

/-- Dispatch by (original-case) filename extension; `none` when no analyzer
applies.  Content is truncated to 5000 characters before analysis. -/
def dispatchRecord (name : Str) (content : Str) : Option DetectorRecord :=
  if ".py".data.isSuffixOf name then some (analyze_python_code (content.take 5000) name)
  else if ".js".data.isSuffixOf name || ".ts".data.isSuffixOf name then
    some (analyze_js_code (content.take 5000) name)
  else none

/-- The analysed record of one candidate: `none` when both branch fetches
fail (the candidate is skipped) or no analyzer applies. -/
def perFile (oracle : Str → Str → Option Str) (f : FileEntry) : Option DetectorRecord :=
  match fetchContent oracle f.name with
  | none => none
  | some c => dispatchRecord f.name c

/-- The accumulation loop of `analyze_code_content` over `key_files[:5]`,
with the source's `dict.update` merge. -/
def analyzeFromListing (contents : List FileEntry) (oracle : Str → Str → Option Str) :
    CodeAnalysis :=
  ((selectKeyFiles contents).take 5).foldl
    (fun acc f =>
      match perFile oracle f with
      | some r => updateMerge acc r
      | none => acc)
    emptyAnalysis

/-- Modelled from the spec: the same loop with the append-only merge the
spec describes, for comparison with `analyzeFromListing`. -/
def analyzeFromListingAppendSpec (contents : List FileEntry)
    (oracle : Str → Str → Option Str) : CodeAnalysis :=
  ((selectKeyFiles contents).take 5).foldl
    (fun acc f =>
      match perFile oracle f with
      | some r => appendMerge acc r
      | none => acc)
    emptyAnalysis

/-- `list(set(xs))` modelled with first-occurrence order. -/
def dedupFirst (l : List Str) : List Str := l.eraseDups

/-- `chr(10).join(f"- {x}" for x in xs)`. -/
def bulletJoin (items : List Str) : Str :=
  joinSep nlc (items.map (fun x => "- ".data ++ x))

/-- The `Key Classes/Components` block of the analysis report
(display cap 10). -/
def classesSection (a : CodeAnalysis) : Str :=
  "Key Classes/Components:\n".data ++ bulletJoin (a.key_classes.take 10)

/-- The `Key Functions/Methods` block of the analysis report
(display cap 10). -/
def functionsSection (a : CodeAnalysis) : Str :=
  "Key Functions/Methods:\n".data ++ bulletJoin (a.key_functions.take 10)

/-- The formatted analysis report of `analyze_code_content`. -/
def formatAnalysis (a : CodeAnalysis) : Str :=
  "Code Analysis Results:\n\nMain Functionality Detected:\n".data ++
  bulletJoin (a.main_functionality.take 10) ++
  "\n\n".data ++ classesSection a ++
  "\n\n".data ++ functionsSection a ++
  "\n\nEntry Points:\n".data ++ bulletJoin (a.entry_points.take 5) ++
  "\n\nAPI Endpoints Detected:\n".data ++ bulletJoin (a.apis_endpoints.take 10) ++
  "\n\nCLI Commands:\n".data ++ bulletJoin (a.cli_commands.take 5) ++
  "\n\nCommon Imports/Dependencies:\n".data ++
  bulletJoin ((dedupFirst a.imports).take 15) ++ "\n".data

/-- The `analyze_code_content` tool.  `listing` is the response to the
contents-listing API call (`none` = non-200).  The unguarded
`parts[-2]` indexing of the source raises `IndexError` when the split URL
has fewer than two parts; this is the `Except.error` case. -/
def analyze_code_content (listing : Option (List FileEntry))
    (oracle : Str → Str → Option Str) (github_url : Str) : Except Str Str :=
  let parts := splitOnChar slashc github_url
  if parts.length < 2 then Except.error "IndexError: list index out of range".data
  else
    match listing with
    | none => Except.ok "Could not access repository contents".data
    | some contents => Except.ok (formatAnalysis (analyzeFromListing contents oracle))

/-- Decimal rendering of a count (`len(...)` interpolated in an f-string). -/
def natToStr (n : Nat) : Str := (toString n).data

/-- The three lists built by `extract_project_features`. -/
structure FeatureReport where
  features : List Str
  technologies : List Str
  use_cases : List Str
deriving DecidableEq, Repr

/-- The endpoint methods matched by
`re.findall(r'- (GET|POST|PUT|DELETE) [^\n]+', code_analysis)` (the single
capture group makes `findall` return only the method names). -/
def methodsFound (code_analysis : Str) : List Str := runScan tryMethodLine code_analysis

/-- The rule table of `extract_project_features`, producing the features,
technologies and use-case lists in source order. -/
def extractRecord (repo_info code_analysis : Str) : FeatureReport :=
  let info := lower repo_info
  let code := lower code_analysis
  let flaskB := hasSub "flask".data info || hasSub "flask".data code
  let fastapiB := hasSub "fastapi".data info || hasSub "fastapi".data code
  let reactB := hasSub "react".data info || hasSub "react".data code
  let mlB := hasSub "machine learning".data info || hasSub "pandas".data info ||
    hasSub "numpy".data info || hasSub "sklearn".data info ||
    hasSub "tensorflow".data info || hasSub "pytorch".data info
  let dbB := hasSub "database".data info || hasSub "sqlite".data info ||
    hasSub "postgresql".data info || hasSub "mysql".data info ||
    hasSub "mongodb".data info
  let dockerB := hasSub "docker".data info
  let apiB := hasSub "api".data info || hasSub "rest".data info
  let epHeaderB := hasSub "api endpoints detected".data code
  let cliB := hasSub "cli commands".data code
  let eps := methodsFound code_analysis
  { features :=
      (if flaskB then ["RESTful API endpoints".data, "Web-based user interface".data] else []) ++
      (if fastapiB then
        ["High-performance async API".data,
         "Automatic API documentation (OpenAPI/Swagger)".data,
         "Type hints and validation".data] else []) ++
      (if reactB then
        ["Interactive user interface".data, "Component-based architecture".data,
         "Single-page application (SPA)".data] else []) ++
      (if mlB then
        ["Data preprocessing and analysis".data, "Machine learning model training".data,
         "Predictive analytics".data] else []) ++
      (if dbB then
        ["Data persistence and storage".data, "Database operations (CRUD)".data] else []) ++
      (if dockerB then
        ["Containerized deployment".data, "Environment consistency".data] else []) ++
      (if apiB then
        ["API integration capabilities".data, "HTTP request handling".data] else []) ++
      (if epHeaderB then
        (if eps.isEmpty then []
         else ["API endpoints: ".data ++ joinCommaSpace (eps.take 3)]) else []) ++
      (if cliB then ["Command-line interface".data] else [])
    technologies :=
      (if flaskB then ["Flask web framework".data] else []) ++
      (if fastapiB then ["FastAPI framework".data] else []) ++
      (if reactB then ["React.js".data] else []) ++
      (if dockerB then ["Docker".data] else [])
    use_cases :=
      (if mlB then ["Data science and analytics".data] else []) ++
      (if cliB then ["Command-line tool".data] else []) }

/-- The formatted report of `extract_project_features`. -/
def extract_project_features (repo_info code_analysis : Str) : Str :=
  let r := extractRecord repo_info code_analysis
  "Extracted Project Features:\n\nKey Features:\n".data ++
  bulletJoin (r.features.take 8) ++
  "\n\nTechnologies Used:\n".data ++ bulletJoin (r.technologies.take 6) ++
  "\n\nPrimary Use Cases:\n".data ++ bulletJoin (r.use_cases.take 4) ++
  "\n\nDetected Capabilities:\n- ".data ++ natToStr r.features.length ++
  " specific features identified\n- ".data ++ natToStr r.technologies.length ++
  " technologies detected\n- ".data ++ natToStr r.use_cases.length ++
  " use cases identified\n".data

/-- Header-field parsing of `generate_smart_readme`: scan the report's
lines for an exact line prefix; on a match take everything after the first
colon (`line.split(":", 1)[1].strip()`, the first colon being the prefix's
last character) — the last matching line wins. -/
def lastField (pre : Str) (report : Str) : Str :=
  (splitOnChar nlc report).foldl
    (fun acc l => if pre.isPrefixOf l then strip (l.drop pre.length) else acc)
    []

/-- The parsed `repo_name`. -/
def parsedName (r : Str) : Str := lastField "Name:".data r

/-- The parsed `description`. -/
def parsedDescription (r : Str) : Str := lastField "Description:".data r

/-- The parsed `url`. -/
def parsedUrl (r : Str) : Str := lastField "URL:".data r

/-- The parsed `topics`. -/
def parsedTopics (r : Str) : Str := lastField "Topics:".data r

/-- The parsed `homepage`. -/
def parsedHomepage (r : Str) : Str := lastField "Homepage:".data r

/-- The parsed `license_info`. -/
def parsedLicense (r : Str) : Str := lastField "License:".data r

/-- Project-type classification by substring search over the whole
metadata report. -/
def projectType (r : Str) : Str :=
  let low := lower r
  if hasSub "python".data low then "Python Application".data
  else if hasSub "javascript".data low || hasSub "node".data low then
    "JavaScript/Node.js Application".data
  else if hasSub "rust".data low then "Rust Application".data
  else if hasSub "go".data low then "Go Application".data
  else "Software Project".data

/-- Title and description block (with the generic-sentence fallback for a
missing or literal-None description). -/
def headerChunk (r : Str) : Str :=
  "# ".data ++ parsedName r ++ "\n\n".data ++
  (if parsedDescription r ≠ [] ∧ parsedDescription r ≠ "None".data then parsedDescription r
   else "A ".data ++ lower (projectType r) ++ " built with modern technologies.".data) ++
  "\n\n".data

/-- Optional topics line. -/
def topicsChunk (r : Str) : Str :=
  if parsedTopics r ≠ [] ∧ parsedTopics r ≠ "None".data then
    "**Topics:** ".data ++ parsedTopics r ++ "\n\n".data
  else []

/-- Optional live-demo line. -/
def homepageChunk (r : Str) : Str :=
  if parsedHomepage r ≠ [] ∧ parsedHomepage r ≠ "None".data then
    "🌐 **Live Demo:** [".data ++ parsedHomepage r ++ "](".data ++ parsedHomepage r ++
    ")\n\n".data
  else []

/-- The bulleted analysis-report lines mentioning functionality or
application (`line[2:]` of each). -/
def mainFuncs (c : Str) : List Str :=
  ((splitOnChar nlc c).filter
    (fun l => "- ".data.isPrefixOf l &&
      (hasSub "functionality".data (lower l) || hasSub "application".data (lower l)))).map
    (fun l => l.drop 2)

/-- One rendered `- {x}\n` bullet per item. -/
def bulletsNl (items : List Str) : Str :=
  concatAll (items.map (fun x => "- ".data ++ x ++ "\n".data))

/-- Overview section (heading unconditional, provides-list conditional,
capped at 3). -/
def overviewChunk (r c : Str) : Str :=
  "## Overview\n\n".data ++
  (if mainFuncs c ≠ [] then
     "This ".data ++ lower (projectType r) ++ " provides:\n\n".data ++
     bulletsNl ((mainFuncs c).take 3) ++ "\n".data
   else [])

/-- The non-empty bulleted lines of the feature report
(`line[2:].strip()` of each). -/
def featureLines (f : Str) : List Str :=
  ((splitOnChar nlc f).filter
    (fun l => "- ".data.isPrefixOf l && !(strip (l.drop 2)).isEmpty)).map
    (fun l => strip (l.drop 2))

/-- Features section, rendered only when non-empty, capped at 8. -/
def featuresChunk (f : Str) : Str :=
  if featureLines f ≠ [] then
    "## Features\n\n".data ++ bulletsNl ((featureLines f).take 8) ++ "\n".data
  else []

/-- The bulleted analysis-report lines containing an HTTP verb
(`line[2:]` of each). -/
def apiLines (c : Str) : List Str :=
  ((splitOnChar nlc c).filter
    (fun l => (hasSub "GET".data l || hasSub "POST".data l ||
               hasSub "PUT".data l || hasSub "DELETE".data l) &&
              "- ".data.isPrefixOf l)).map
    (fun l => l.drop 2)

/-- API Endpoints section, rendered only when non-empty, capped at 6. -/
def apiChunk (c : Str) : Str :=
  if apiLines c ≠ [] then
    "## API Endpoints\n\n".data ++ bulletsNl ((apiLines c).take 6) ++ "\n".data
  else []

/-- Python installation snippet (prerequisites, clone, pip, poetry). -/
def pyInstallBase (url name : Str) : Str :=
  "### Prerequisites\n- Python 3.7 or higher\n- pip package manager\n\n### Setup\n```bash\n# Clone the repository\ngit clone ".data ++
  url ++ "\ncd ".data ++ name ++
  "\n\n# Install dependencies\npip install -r requirements.txt\n\n# Or if using poetry\npoetry install\n```\n\n".data

/-- Run-the-server snippet emitted for a web-framework marker. -/
def serverRunSnippet : Str :=
  "### Running the Application\n```bash\n# Start the server\npython app.py\n# or\nuvicorn main:app --reload  # for FastAPI\n```\n\n".data

/-- Leading literal of the JS/Node installation snippet. -/
def jsInstallPre : Str :=
  "### Prerequisites\n- Node.js 14 or higher\n- npm or yarn\n\n### Setup\n```bash\n# Clone the repository\ngit clone ".data

/-- Literal between the interpolated url and repository name. -/
def jsInstallMid : Str := "\ncd ".data

/-- Trailing literal of the JS/Node installation snippet. -/
def jsInstallPost : Str :=
  "\n\n# Install dependencies\nnpm install\n# or\nyarn install\n\n# Start the application\nnpm start\n# or\nyarn start\n```\n\n".data

/-- JS/Node installation snippet (npm / yarn). -/
def jsInstall (url name : Str) : Str :=
  jsInstallPre ++ url ++ jsInstallMid ++ name ++ jsInstallPost

/-- Generic clone-only installation snippet. -/
def genericInstall (url name : Str) : Str :=
  "```bash\n# Clone the repository\ngit clone ".data ++ url ++ "\ncd ".data ++ name ++
  "\n\n# Follow project-specific installation instructions\n```\n\n".data

/-- Installation section: unconditional heading, then a branch on the
ecosystem markers found in the metadata report (including the
web-framework check, which reads `repo_info`). -/
def installChunk (r : Str) : Str :=
  "## Installation\n\n".data ++
  (if hasSub "python".data (lower r) then
    pyInstallBase (parsedUrl r) (parsedName r) ++
    (if hasSub "flask".data (lower r) || hasSub "fastapi".data (lower r) then
      serverRunSnippet else [])
   else if hasSub "javascript".data (lower r) || hasSub "node".data (lower r) then
    jsInstall (parsedUrl r) (parsedName r)
   else genericInstall (parsedUrl r) (parsedName r))

/-- The bulleted analysis-report lines mentioning command or cli
(`line[2:]` of each). -/
def cliLines (c : Str) : List Str :=
  ((splitOnChar nlc c).filter
    (fun l => "- ".data.isPrefixOf l &&
      (hasSub "command".data (lower l) || hasSub "cli".data (lower l)))).map
    (fun l => l.drop 2)

/-- Usage section: fenced blocks for up to 3 CLI lines, else a fixed
placeholder. -/
def usageChunk (c : Str) : Str :=
  "## Usage\n\n".data ++
  (if cliLines c ≠ [] then
     "### Command Line Interface\n\n".data ++
     concatAll (((cliLines c).take 3).map
       (fun cmd => "```bash\n".data ++ cmd ++ "\n```\n\n".data))
   else "[Add specific usage examples here]\n\n".data)

/-- Fixed Contributing section. -/
def contributingChunk : Str :=
  "## Contributing\n\n1. Fork the repository\n2. Create a feature branch (`git checkout -b feature/amazing-feature`)\n3. Commit your changes (`git commit -m ".data ++
  [squote] ++ "Add some amazing feature".data ++ [squote] ++
  "`)\n4. Push to the branch (`git push origin feature/amazing-feature`)\n5. Open a Pull Request\n\n".data

/-- Optional License section. -/
def licenseChunk (r : Str) : Str :=
  if parsedLicense r ≠ [] ∧ parsedLicense r ≠ "None".data then
    "## License\n\nThis project is licensed under the ".data ++ parsedLicense r ++
    " License.\n\n".data
  else []

/-- Contact section. -/
def contactChunk (r : Str) : Str :=
  "## Contact\n\nProject Link: ".data ++ parsedUrl r ++ "\n".data

/-- `generate_smart_readme(repo_info, code_analysis, features)`: the
sequential `readme_content +=` assembly of src/tools.py as one
concatenation. -/
def generate_smart_readme (repo_info code_analysis features : Str) : Str :=
  headerChunk repo_info ++ topicsChunk repo_info ++ homepageChunk repo_info ++
  overviewChunk repo_info code_analysis ++ featuresChunk features ++
  apiChunk code_analysis ++ installChunk repo_info ++ usageChunk code_analysis ++
  contributingChunk ++ licenseChunk repo_info ++ contactChunk repo_info

/-- `finalize_readme_output`. -/
def finalize_readme_output (readme_content : Str) : Str :=
  "```markdown\n".data ++ strip readme_content ++ "\n```".data

/-- Python `s.endswith("/") and s[:-1] or s` idiom of the fetcher's
prelude: strip one trailing separator. -/
def stripTrailing (c : Char) (s : Str) : Str :=
  if s.getLast? = some c then s.dropLast else s

/-- `fetch_comprehensive_repo_info`: the validation prelude of
src/tools.py (strip one trailing slash, split on `/`, reject fewer than 5
parts), with the entire fetching-and-formatting body abstracted as `rest`
applied to the extracted owner and repository name (`parts[-2]`,
`parts[-1]`). -/
def fetch_comprehensive_repo_info (rest : Str → Str → Str) (github_url : Str) : Str :=
  let u := stripTrailing slashc github_url
  let parts := splitOnChar slashc u
  if parts.length < 5 then "Invalid GitHub URL format".data
  else rest (parts.dropLast.getLastD []) (parts.getLastD [])

/-- Number of rendered bullet lines (lines beginning `- `) in a text. -/
def bulletCount (s : Str) : Nat :=
  ((splitOnChar nlc s).filter (fun l => "- ".data.isPrefixOf l)).length

/-- A fully-qualified URL `scheme://host/seg1/…` assembled from
slash-free components (`scheme:`, the empty authority-marker part, the
host, and the path segments, joined by `/`). -/
def urlOf (scheme host : Str) (segs : List Str) : Str :=
  joinSep slashc ((scheme ++ ":".data) :: [] :: host :: segs)

/-- Demo listing with two plain Python source files. -/
def c1Listing : List FileEntry :=
  [{ entryType := "file".data, name := "a.py".data },
   { entryType := "file".data, name := "b.py".data }]

/-- Demo content oracle: `a.py` mentions Flask, `b.py` mentions FastAPI. -/
def c1Oracle : Str → Str → Option Str :=
  fun _ n =>
    if n = "a.py".data then some "import flask".data
    else if n = "b.py".data then some "import fastapi".data
    else none

/-- Oracle whose only populated branch is `dev` (the repository's declared
default branch in the C4 scenario). -/
def c4Oracle : Str → Str → Option Str :=
  fun br _ => if br = "dev".data then some "x".data else none

/-- Oracle whose only populated branch is `main`. -/
def c4MainOracle : Str → Str → Option Str :=
  fun br _ => if br = "main".data then some "m".data else none

/-- A Python source with a Flask import and one method-less
`@app.route(…)` decorator. -/
def c9Content : Str :=
  "from flask import Flask\n@app.route(".data ++ [squote] ++ "/health".data ++
  [squote] ++ ")".data

/-- A CodeAnalysis carrying more raw classes and functions than the
display caps. -/
def c7Analysis : CodeAnalysis :=
  { main_functionality := []
    key_classes :=
      ["A".data, "B".data, "C".data, "D".data, "E".data, "F".data, "G".data,
       "H".data, "I".data, "J".data, "K".data, "L".data]
    key_functions :=
      ["f1".data, "f2".data, "f3".data, "f4".data, "f5".data, "f6".data,
       "f7".data, "f8".data, "f9".data, "f10".data, "f11".data, "f12".data]
    imports := [], project_structure := [], entry_points := []
    apis_endpoints := [], cli_commands := [] }

theorem isPre_iff (p s : Str) : p.isPrefixOf s = true ↔ p <+: s := by
  induction p generalizing s with
  | nil => simp [List.isPrefixOf]
  | cons a p ih =>
    cases s with
    | nil =>
      simp only [List.isPrefixOf]
      constructor
      · intro h; exact absurd h (by simp)
      · rintro ⟨t, ht⟩; exact absurd ht (by simp)
    | cons b s =>
      simp [List.isPrefixOf, List.cons_prefix_cons, ih]

theorem sub_cons_iff {n : Str} {a : Char} {h : Str} :
    n <:+: a :: h ↔ n <+: a :: h ∨ n <:+: h := by
  constructor
  · rintro ⟨s, t, hst⟩
    cases s with
    | nil => exact Or.inl ⟨t, hst⟩
    | cons x s =>
      right
      injection hst with h1 h2
      exact ⟨s, t, h2⟩
  · rintro (⟨t, ht⟩ | ⟨s, t, hst⟩)
    · exact ⟨[], t, ht⟩
    · exact ⟨a :: s, t, by rw [List.cons_append, List.cons_append, hst]⟩

theorem hasSub_iff (n h : Str) : hasSub n h = true ↔ n <:+: h := by
  induction h with
  | nil =>
    simp only [hasSub, List.isEmpty_iff]
    constructor
    · rintro rfl; exact ⟨[], [], rfl⟩
    · rintro ⟨s, t, hst⟩
      rcases List.append_eq_nil.mp hst with ⟨h1, h2⟩
      exact (List.append_eq_nil.mp h1).2
  | cons a h ih =>
    simp [hasSub, Bool.or_eq_true, isPre_iff, ih, sub_cons_iff]

theorem hasSub_false {n h : Str} (hn : ¬ n <:+: h) : hasSub n h = false :=
  Bool.eq_false_iff.mpr (fun ht => hn ((hasSub_iff n h).mp ht))

theorem sub_of_hasSub {n h : Str} (hf : hasSub n h = true) : n <:+: h :=
  (hasSub_iff n h).mp hf

theorem not_sub_of_hasSub {n h : Str} (hf : hasSub n h = false) : ¬ n <:+: h :=
  fun hc => Bool.noConfusion (((hasSub_iff n h).mpr hc).symm.trans hf)

theorem pre_sub {p x : Str} (h : p <+: x) : p <:+: x := by
  obtain ⟨t, ht⟩ := h
  exact ⟨[], t, ht⟩

theorem sub_app_left {p x : Str} (h : p <:+: x) (y : Str) : p <:+: x ++ y := by
  obtain ⟨s, t, hst⟩ := h
  exact ⟨s, t ++ y, by rw [← hst]; simp⟩

theorem sub_app_right {p y : Str} (x : Str) (h : p <:+: y) : p <:+: x ++ y := by
  obtain ⟨s, t, hst⟩ := h
  exact ⟨x ++ s, t, by rw [← hst]; simp⟩

theorem sub_app_cases {p x y : Str} (h : p <:+: x ++ y) :
    p <:+: x ∨ p <:+: y ∨
      ∃ p₁ p₂, p = p₁ ++ p₂ ∧ p₁ ≠ [] ∧ p₂ ≠ [] ∧ p₁ <:+ x ∧ p₂ <+: y := by
  obtain ⟨s, t, hst⟩ := h
  have h1 : (s ++ p) ++ t = x ++ y := by rw [← hst]
  rcases List.append_eq_append_iff.mp h1 with ⟨w, hx, ht⟩ | ⟨w, hsp, hy⟩
  · exact Or.inl ⟨s, w, by rw [hx]⟩
  · rcases List.append_eq_append_iff.mp hsp with ⟨v, hxv, hp⟩ | ⟨v, hsv, hw⟩
    · by_cases hw0 : w = []
      · subst hw0
        left
        exact ⟨s, [], by rw [hxv, hp]; simp⟩
      · by_cases hv0 : v = []
        · subst hv0
          right; left
          exact pre_sub ⟨t, by rw [hy, hp]; simp⟩
        · right; right
          refine ⟨v, w, hp, hv0, hw0, ⟨s, hxv.symm⟩, ⟨t, hy.symm⟩⟩
    · right; left
      exact ⟨v, t, by rw [hy, hw]⟩

theorem three_split {a b c : Char} {p₁ p₂ : Str} (h : p₁ ++ p₂ = [a, b, c])
    (h₁ : p₁ ≠ []) (h₂ : p₂ ≠ []) :
    (p₁ = [a] ∧ p₂ = [b, c]) ∨ (p₁ = [a, b] ∧ p₂ = [c]) := by
  cases p₁ with
  | nil => exact absurd rfl h₁
  | cons x p₁ =>
    cases p₁ with
    | nil =>
      injection h with hx ht
      exact Or.inl ⟨by rw [hx], ht⟩
    | cons y p₁ =>
      cases p₁ with
      | nil =>
        injection h with hx h
        injection h with hy ht
        exact Or.inr ⟨by rw [hx, hy], ht⟩
      | cons z p₁ =>
        injection h with hx h
        injection h with hy h
        injection h with hz h
        exact absurd (List.append_eq_nil.mp h).2 h₂

theorem not_pre_of_head {x a : Char} {p s : Str} (hne : x ≠ a) :
    ¬ (x :: p <+: a :: s) :=
  fun hp => hne (List.cons_prefix_cons.mp hp).1

theorem split_ne_nil (c : Char) (s : Str) : splitOnChar c s ≠ [] := by
  induction s with
  | nil => simp [splitOnChar]
  | cons a s ih =>
    simp only [splitOnChar]
    rcases hs : splitOnChar c s with _ | ⟨h0, t⟩
    · exact absurd hs ih
    · by_cases hac : a = c <;> simp [hac]

theorem split_no_sep {c : Char} {s : Str} (h : c ∉ s) : splitOnChar c s = [s] := by
  induction s with
  | nil => rfl
  | cons a s ih =>
    have hac : a ≠ c := fun he => h (by rw [he]; exact List.mem_cons_self _ _)
    have hcs : c ∉ s := fun hm => h (List.mem_cons_of_mem _ hm)
    simp only [splitOnChar, ih hcs]
    simp [hac]

theorem split_sep_append {c : Char} {x : Str} (y : Str) (hx : c ∉ x) :
    splitOnChar c (x ++ c :: y) = x :: splitOnChar c y := by
  induction x with
  | nil =>
    simp only [List.nil_append, splitOnChar]
    rcases hs : splitOnChar c y with _ | ⟨h0, t⟩
    · exact absurd hs (split_ne_nil c y)
    · simp
  | cons a x ih =>
    have hac : a ≠ c := fun he => hx (by rw [he]; exact List.mem_cons_self _ _)
    have hcx : c ∉ x := fun hm => hx (List.mem_cons_of_mem _ hm)
    simp only [List.cons_append, splitOnChar, List.append_eq]
    rw [ih hcx]
    simp [hac]

theorem mem_split {c : Char} {s : Str} : ∀ l ∈ splitOnChar c s, c ∉ l := by
  induction s with
  | nil =>
    intro l hl
    simp [splitOnChar] at hl
    simp [hl]
  | cons a s ih =>
    intro l hl
    simp only [splitOnChar] at hl
    rcases hs : splitOnChar c s with _ | ⟨h0, t⟩
    · exact absurd hs (split_ne_nil c s)
    · rw [hs] at hl
      by_cases hac : a = c
      · simp [hac] at hl
        rcases hl with rfl | hl
        · simp
        · exact ih l (by rw [hs]; exact List.mem_cons.mpr hl)
      · simp [hac] at hl
        rcases hl with rfl | hl
        · intro hm
          rcases List.mem_cons.mp hm with he | hm2
          · exact hac he.symm
          · exact ih h0 (by rw [hs]; exact List.mem_cons_self _ _) hm2
        · exact ih l (by rw [hs]; exact List.mem_cons_of_mem _ hl)

theorem split_concat_len (c : Char) (s : Str) :
    (splitOnChar c (s ++ [c])).length = (splitOnChar c s).length + 1 := by
  induction s with
  | nil => simp [splitOnChar]
  | cons a s ih =>
    simp only [List.cons_append, splitOnChar]
    rcases hs : splitOnChar c (s ++ [c]) with _ | ⟨h0, t⟩
    · exact absurd hs (split_ne_nil c _)
    · rcases hs2 : splitOnChar c s with _ | ⟨g0, u⟩
      · exact absurd hs2 (split_ne_nil c s)
      · have hlen : (h0 :: t).length = (g0 :: u).length + 1 := by
          rw [← hs, ← hs2]; exact ih
        by_cases hac : a = c <;> simp [hac] <;> simpa using hlen

theorem split_join {c : Char} : ∀ {L : List Str}, L ≠ [] → (∀ p ∈ L, c ∉ p) →
    splitOnChar c (joinSep c L) = L := by
  intro L
  induction L with
  | nil => intro h; exact absurd rfl h
  | cons x L ih =>
    intro _ hmem
    cases L with
    | nil =>
      simp only [joinSep]
      exact split_no_sep (hmem x (List.mem_cons_self _ _))
    | cons y ys =>
      simp only [joinSep]
      rw [split_sep_append _ (hmem x (List.mem_cons_self _ _))]
      rw [ih (by simp) (fun p hp => hmem p (List.mem_cons_of_mem _ hp))]

theorem split_strip_le (c : Char) (s : Str) :
    (splitOnChar c (stripTrailing c s)).length ≤ (splitOnChar c s).length := by
  unfold stripTrailing
  by_cases h : s.getLast? = some c
  · rw [if_pos h]
    have hs : s.dropLast ++ [c] = s := List.dropLast_append_getLast? c h
    calc (splitOnChar c s.dropLast).length
        ≤ (splitOnChar c s.dropLast).length + 1 := Nat.le_succ _
      _ = (splitOnChar c (s.dropLast ++ [c])).length := (split_concat_len c _).symm
      _ = (splitOnChar c s).length := by rw [hs]
  · rw [if_neg h]

theorem mem_of_mem_strip {a : Char} {s : Str} (h : a ∈ strip s) : a ∈ s := by
  unfold strip at h
  rw [List.mem_reverse] at h
  have h2 := (List.dropWhile_sublist _).mem h
  rw [List.mem_reverse] at h2
  exact (List.dropWhile_sublist _).mem h2

theorem nlData : "\n".data = [nlc] := by decide

theorem filter_bullets (items : List Str) :
    ((items.map (fun x => "- ".data ++ x)).filter
      (fun l => "- ".data.isPrefixOf l)).length = items.length := by
  have h : ∀ l ∈ items.map (fun x => "- ".data ++ x),
      ("- ".data.isPrefixOf l) = true := by
    intro l hl
    rcases List.mem_map.mp hl with ⟨x, _, rfl⟩
    exact (isPre_iff _ _).mpr ⟨x, rfl⟩
  rw [List.filter_eq_self.mpr h, List.length_map]

theorem count_joined (hdr : Str) (items : List Str) (hh : nlc ∉ hdr)
    (hp : "- ".data.isPrefixOf hdr = false) (hnl : ∀ x ∈ items, nlc ∉ x) :
    bulletCount (hdr ++ nlc :: bulletJoin items) = items.length := by
  unfold bulletCount
  rw [split_sep_append _ hh]
  cases items with
  | nil => simp [bulletJoin, joinSep, splitOnChar, hp]
  | cons x xs =>
    have hmap : splitOnChar nlc (bulletJoin (x :: xs)) =
        (x :: xs).map (fun i => "- ".data ++ i) := by
      unfold bulletJoin
      refine split_join (by simp) ?_
      intro p hp2
      rcases List.mem_map.mp hp2 with ⟨i, hi, rfl⟩
      intro hm
      rcases List.mem_append.mp hm with h1 | h2
      · exact (by decide : nlc ∉ "- ".data) h1
      · exact hnl i hi h2
    rw [hmap, List.filter_cons]
    simp only [hp, Bool.false_eq_true, if_false]
    exact filter_bullets _

theorem split_bulletsNl (items : List Str) (rest : Str)
    (hnl : ∀ x ∈ items, nlc ∉ x) :
    splitOnChar nlc (bulletsNl items ++ rest) =
      items.map (fun x => "- ".data ++ x) ++ splitOnChar nlc rest := by
  induction items with
  | nil => simp [bulletsNl, concatAll]
  | cons x xs ih =>
    have hx : nlc ∉ "- ".data ++ x := by
      intro hm
      rcases List.mem_append.mp hm with h1 | h2
      · exact (by decide : nlc ∉ "- ".data) h1
      · exact hnl x (List.mem_cons_self _ _) h2
    have heq : bulletsNl (x :: xs) ++ rest =
        ("- ".data ++ x) ++ nlc :: (bulletsNl xs ++ rest) :=
      calc bulletsNl (x :: xs) ++ rest
          = (("- ".data ++ x ++ "\n".data) ++ bulletsNl xs) ++ rest := rfl
        _ = ("- ".data ++ x) ++ nlc :: (bulletsNl xs ++ rest) := by
            rw [nlData]; simp [List.append_assoc]
    rw [heq, split_sep_append _ hx,
      ih (fun i hi => hnl i (List.mem_cons_of_mem _ hi))]
    simp

theorem featureLines_no_nl (f : Str) : ∀ x ∈ featureLines f, nlc ∉ x := by
  intro x hx
  unfold featureLines at hx
  rcases List.mem_map.mp hx with ⟨l, hl, rfl⟩
  intro hm
  exact mem_split l (List.mem_of_mem_filter hl)
    (List.drop_subset 2 l (mem_of_mem_strip hm))

theorem apiLines_no_nl (c : Str) : ∀ x ∈ apiLines c, nlc ∉ x := by
  intro x hx
  unfold apiLines at hx
  rcases List.mem_map.mp hx with ⟨l, hl, rfl⟩
  intro hm
  exact mem_split l (List.mem_of_mem_filter hl) (List.drop_subset 2 l hm)

theorem bc_bulleted_chunk (hdr : Str) (items : List Str) (hh : nlc ∉ hdr)
    (hp : "- ".data.isPrefixOf hdr = false) (hnl : ∀ x ∈ items, nlc ∉ x) :
    bulletCount ((hdr ++ [nlc] ++ [nlc]) ++ (bulletsNl items ++ "\n".data)) =
      items.length := by
  unfold bulletCount
  have heq : (hdr ++ [nlc] ++ [nlc]) ++ (bulletsNl items ++ "\n".data) =
      hdr ++ nlc :: ([] ++ nlc :: (bulletsNl items ++ "\n".data)) := by
    simp
  rw [heq, split_sep_append _ hh, split_sep_append _ (by simp),
    split_bulletsNl items _ hnl]
  have hrest : splitOnChar nlc "\n".data = [[], []] := by decide
  rw [hrest]
  simp only [List.filter, hp]
  rw [show ("- ".data.isPrefixOf ([] : Str)) = false from by decide]
  simp only [List.filter_append]
  rw [show (List.filter (fun l => "- ".data.isPrefixOf l) [[], []]) = [] from by decide]
  simp only [List.append_nil]
  exact filter_bullets _

/-- C7: the rendered Features list never exceeds 8 entries, the rendered
Key Classes and Key Functions lists of the analysis report never exceed 10
entries each, and the rendered API Endpoints list never exceeds 6 entries,
regardless of how many raw items were collected. -/
theorem C7_render_caps (f c : Str) (a : CodeAnalysis)
    (hc : ∀ x ∈ a.key_classes, nlc ∉ x) (hfn : ∀ x ∈ a.key_functions, nlc ∉ x) :
    bulletCount (featuresChunk f) ≤ 8 ∧ bulletCount (apiChunk c) ≤ 6 ∧
    bulletCount (classesSection a) ≤ 10 ∧ bulletCount (functionsSection a) ≤ 10 := by
  refine ⟨?_, ?_, ?_, ?_⟩
  · by_cases h : featureLines f = []
    · unfold featuresChunk
      simp [h, bulletCount, splitOnChar]
    · have hchunk : featuresChunk f =
          "## Features\n\n".data ++ bulletsNl ((featureLines f).take 8) ++ "\n".data := by
        unfold featuresChunk
        rw [if_pos h]
      have heq : ("## Features\n\n".data : Str) =
          "## Features".data ++ [nlc] ++ [nlc] := by decide
      rw [hchunk, heq, List.append_assoc ("## Features".data ++ [nlc] ++ [nlc]),
        bc_bulleted_chunk _ _ (by decide) (by decide)
          (fun x hx => featureLines_no_nl f x (List.take_subset 8 _ hx))]
      exact List.length_take_le _ _
  · by_cases h : apiLines c = []
    · unfold apiChunk
      simp [h, bulletCount, splitOnChar]
    · have hchunk : apiChunk c =
          "## API Endpoints\n\n".data ++ bulletsNl ((apiLines c).take 6) ++ "\n".data := by
        unfold apiChunk
        rw [if_pos h]
      have heq : ("## API Endpoints\n\n".data : Str) =
          "## API Endpoints".data ++ [nlc] ++ [nlc] := by decide
      rw [hchunk, heq, List.append_assoc ("## API Endpoints".data ++ [nlc] ++ [nlc]),
        bc_bulleted_chunk _ _ (by decide) (by decide)
          (fun x hx => apiLines_no_nl c x (List.take_subset 6 _ hx))]
      exact List.length_take_le _ _
  · unfold classesSection
    have heq : ("Key Classes/Components:\n".data : Str) =
        "Key Classes/Components:".data ++ [nlc] := by decide
    rw [heq, List.append_assoc, List.singleton_append,
      count_joined _ _ (by decide) (by decide)
        (fun x hx => hc x (List.take_subset 10 _ hx))]
    exact List.length_take_le _ _
  · unfold functionsSection
    have heq : ("Key Functions/Methods:\n".data : Str) =
        "Key Functions/Methods:".data ++ [nlc] := by decide
    rw [heq, List.append_assoc, List.singleton_append,
      count_joined _ _ (by decide) (by decide)
        (fun x hx => hfn x (List.take_subset 10 _ hx))]
    exact List.length_take_le _ _

/-- C7 witness: the caps hold at a CodeAnalysis carrying 12 raw classes
and 12 raw functions. -/
theorem C7_witness :
    bulletCount (featuresChunk []) ≤ 8 ∧ bulletCount (apiChunk []) ≤ 6 ∧
    bulletCount (classesSection c7Analysis) ≤ 10 ∧
    bulletCount (functionsSection c7Analysis) ≤ 10 :=
  C7_render_caps [] [] c7Analysis (by decide) (by decide)

theorem fold_update_filterMap (g : FileEntry → Option DetectorRecord)
    (files : List FileEntry) (init : CodeAnalysis) :
    files.foldl
      (fun acc f => match g f with | some r => updateMerge acc r | none => acc) init
      = (files.filterMap g).foldl updateMerge init := by
  induction files generalizing init with
  | nil => rfl
  | cons f fs ih =>
    cases h : g f with
    | none => simp [List.foldl, h, List.filterMap_cons, ih]
    | some r => simp [List.foldl, h, List.filterMap_cons, ih]

theorem foldl_update_proj (init : CodeAnalysis) (l : List DetectorRecord) :
    (l.foldl updateMerge init).project_structure = init.project_structure := by
  induction l generalizing init with
  | nil => rfl
  | cons r rs ih => exact ih (updateMerge init r)

theorem update_congr {a b : CodeAnalysis}
    (h : a.project_structure = b.project_structure) (r : DetectorRecord) :
    updateMerge a r = updateMerge b r := by
  simp [updateMerge, h]

theorem foldl_update_last (init : CodeAnalysis) (rs : List DetectorRecord)
    (r : DetectorRecord) :
    (rs ++ [r]).foldl updateMerge init = updateMerge init r := by
  rw [List.foldl_append]
  exact update_congr (foldl_update_proj init rs) r

/-- C1: contrary to the append-only merge the spec describes, the per-file
records are merged by `dict.update`, which overwrites every list field; the
cumulative report therefore equals the record of the last successfully
analyzed file among the (at most 5) candidates, or the empty report when
there is none. -/
theorem C1_last_file_wins (contents : List FileEntry) (oracle : Str → Str → Option Str) :
    (((selectKeyFiles contents).take 5).filterMap (perFile oracle) = [] →
      analyzeFromListing contents oracle = emptyAnalysis) ∧
    (∀ rs r, ((selectKeyFiles contents).take 5).filterMap (perFile oracle) = rs ++ [r] →
      analyzeFromListing contents oracle = updateMerge emptyAnalysis r) := by
  unfold analyzeFromListing
  rw [fold_update_filterMap]
  constructor
  · intro h
    rw [h]
    rfl
  · intro rs r h
    rw [h, foldl_update_last]

/-- C1 counterexample: two analyzable Python files, the first mentioning
Flask and the second FastAPI.  The code keeps only the second file's
functionality entry — the first file's entry is overwritten, not appended —
while the spec's append-only merge would keep both. -/
theorem C1_counterexample :
    (analyzeFromListing c1Listing c1Oracle).main_functionality
      = ["FastAPI web service".data] ∧
    "Flask web application".data ∉ (analyzeFromListing c1Listing c1Oracle).main_functionality ∧
    (analyzeFromListingAppendSpec c1Listing c1Oracle).main_functionality
      = ["Flask web application".data, "FastAPI web service".data] := by
  refine ⟨by decide, by decide, by decide⟩

/-- C1 witness: on the demo listing the cumulative analysis equals the
last analyzed file's detector record. -/
theorem C1_witness :
    analyzeFromListing c1Listing c1Oracle =
      updateMerge emptyAnalysis (analyze_python_code "import fastapi".data "b.py".data) :=
  (C1_last_file_wins c1Listing c1Oracle).2
    [analyze_python_code "import flask".data "a.py".data]
    (analyze_python_code "import fastapi".data "b.py".data) (by decide)

/-- C4: the per-candidate fetch first tries the hardcoded branch `main`
(not the repository's declared default branch), falls back to `master`,
and a candidate whose fetch fails on both branches is silently skipped
(its record is `none`, contributing nothing and surfacing no error). -/
theorem C4_branch_fallback (oracle : Str → Str → Option Str) (name : Str) :
    (∀ c, oracle "main".data name = some c → fetchContent oracle name = some c) ∧
    (oracle "main".data name = none →
      fetchContent oracle name = oracle "master".data name) ∧
    (∀ f : FileEntry, fetchContent oracle f.name = none → perFile oracle f = none) := by
  refine ⟨?_, ?_, ?_⟩
  · intro c h
    unfold fetchContent
    rw [h]
  · intro h
    unfold fetchContent
    rw [h]
  · intro f h
    unfold perFile
    rw [h]

/-- C4 counterexample: a repository whose declared default branch is `dev`
and whose content lives only there.  The behaviour the claim describes
(default branch, then `master`) finds the file, but the code — which
hardcodes `main` then `master` — does not. -/
theorem C4_counterexample :
    fetchContentClaim "dev".data c4Oracle "app.py".data = some "x".data ∧
    fetchContent c4Oracle "app.py".data = none := by
  refine ⟨by decide, by decide⟩

/-- C4 witness: with content on `main`, the fetch returns it. -/
theorem C4_witness : fetchContent c4MainOracle "a.py".data = some "m".data :=
  (C4_branch_fallback c4MainOracle "a.py".data).1 "m".data (by decide)

/-- C5 (amended): for URLs with at least two slash-separated parts the
code-analysis stage returns a plain-text result, and a failed
contents-listing call surfaces the "could not access" sentinel as an
ordinary return value (never a raised fault). -/
theorem C5_no_raise (listing : Option (List FileEntry))
    (oracle : Str → Str → Option Str) (url : Str)
    (h : 2 ≤ (splitOnChar slashc url).length) :
    (∃ s, analyze_code_content listing oracle url = Except.ok s) ∧
    (listing = none →
      analyze_code_content listing oracle url =
        Except.ok "Could not access repository contents".data) := by
  unfold analyze_code_content
  rw [if_neg (by omega)]
  constructor
  · cases listing with
    | none => exact ⟨_, rfl⟩
    | some contents => exact ⟨_, rfl⟩
  · rintro rfl
    rfl

/-- C5 counterexample: on the input `"x"` (no slash), the unguarded
`parts[-2]` of `analyze_code_content` raises IndexError — a fault, not a
sentinel return value — contradicting the claim that every stage returns
best-effort text for every input string. -/
theorem C5_counterexample :
    analyze_code_content (some []) (fun _ _ => none) "x".data =
      Except.error "IndexError: list index out of range".data := by
  rfl

/-- C5 witness: a well-formed URL with a failed listing call yields the
sentinel as an ordinary return value. -/
theorem C5_witness :
    (∃ s, analyze_code_content none (fun _ _ => none) "https://github.com/o/r".data =
      Except.ok s) ∧
    (none = (none : Option (List FileEntry)) →
      analyze_code_content none (fun _ _ => none) "https://github.com/o/r".data =
        Except.ok "Could not access repository contents".data) :=
  C5_no_raise none (fun _ _ => none) "https://github.com/o/r".data (by decide)

/-- C6: for every fully-qualified URL with fewer than two path segments
after the host, the metadata fetcher returns the fixed invalid-format
string without attempting any fetch (the result is independent of the
fetching body `rest`), both with and without a trailing slash. -/
theorem C6_invalid_url (rest : Str → Str → Str) (scheme host : Str) (segs : List Str)
    (h1 : slashc ∉ scheme) (h2 : slashc ∉ host) (h3 : ∀ s ∈ segs, slashc ∉ s)
    (h4 : segs.length < 2) :
    fetch_comprehensive_repo_info rest (urlOf scheme host segs) =
      "Invalid GitHub URL format".data ∧
    fetch_comprehensive_repo_info rest (urlOf scheme host segs ++ [slashc]) =
      "Invalid GitHub URL format".data := by
  have hL : ∀ p ∈ (scheme ++ ":".data) :: ([] : Str) :: host :: segs, slashc ∉ p := by
    intro p hp
    rcases List.mem_cons.mp hp with rfl | hp
    · intro hm
      rcases List.mem_append.mp hm with hm1 | hm2
      · exact h1 hm1
      · exact (by decide : slashc ∉ ":".data) hm2
    rcases List.mem_cons.mp hp with rfl | hp
    · simp
    rcases List.mem_cons.mp hp with rfl | hp
    · exact h2
    · exact h3 p hp
  have hjoin : splitOnChar slashc (urlOf scheme host segs) =
      (scheme ++ ":".data) :: [] :: host :: segs :=
    split_join (by simp) hL
  have hlen : (splitOnChar slashc (urlOf scheme host segs)).length = 3 + segs.length := by
    rw [hjoin]
    simp only [List.length_cons]
    omega
  constructor
  · unfold fetch_comprehensive_repo_info
    rw [if_pos]
    calc (splitOnChar slashc (stripTrailing slashc (urlOf scheme host segs))).length
        ≤ (splitOnChar slashc (urlOf scheme host segs)).length := split_strip_le _ _
      _ = 3 + segs.length := hlen
      _ < 5 := by omega
  · unfold fetch_comprehensive_repo_info
    have hstrip : stripTrailing slashc (urlOf scheme host segs ++ [slashc]) =
        urlOf scheme host segs := by
      unfold stripTrailing
      rw [if_pos (List.getLast?_concat _), List.dropLast_concat]
    rw [hstrip, if_pos]
    omega

/-- C6 witness: `https://github.com/owner` (one path segment) is rejected
with the fixed invalid-format string, also with a trailing slash. -/
theorem C6_witness :
    fetch_comprehensive_repo_info (fun _ _ => "REPORT".data)
      (urlOf "https".data "github.com".data ["owner".data]) =
      "Invalid GitHub URL format".data ∧
    fetch_comprehensive_repo_info (fun _ _ => "REPORT".data)
      (urlOf "https".data "github.com".data ["owner".data] ++ [slashc]) =
      "Invalid GitHub URL format".data :=
  C6_invalid_url (fun _ _ => "REPORT".data) "https".data "github.com".data
    ["owner".data] (by decide) (by decide) (by decide) (by decide)

/-- C8: the README assembler is a pure function of its three text inputs —
any two invocations on byte-identical inputs produce byte-identical
output. -/
theorem C8_deterministic (r₁ c₁ f₁ r₂ c₂ f₂ : Str)
    (hr : r₁ = r₂) (hc : c₁ = c₂) (hf : f₁ = f₂) :
    generate_smart_readme r₁ c₁ f₁ = generate_smart_readme r₂ c₂ f₂ := by
  rw [hr, hc, hf]

/-- C8 witness: determinism at a concrete input triple. -/
theorem C8_witness :
    generate_smart_readme "Name: demo".data "flask".data "- x".data =
      generate_smart_readme "Name: demo".data "flask".data "- x".data :=
  C8_deterministic _ _ _ _ _ _ rfl rfl rfl

/-- C9: in a Python file that mentions Flask (and not FastAPI), every route
extracted by the `@app.route` pattern is emitted as `GET/POST <route>` —
the endpoint list is exactly the extracted routes with that fixed label. -/
theorem C9_flask_routes (content filename : Str)
    (hf : "flask".data <:+: lower content)
    (hnf : ¬ "fastapi".data <:+: lower content) :
    (analyze_python_code content filename).apis_endpoints
      = (runScan tryRoute content).map (fun route => "GET/POST ".data ++ route) := by
  have h1 : hasSub "flask".data (lower content) = true := (hasSub_iff _ _).mpr hf
  have h2 : hasSub "fastapi".data (lower content) = false := hasSub_false hnf
  simp [analyze_python_code, h1, h2]

/-- C9 witness: a Flask file with the single decorator
`@app.route('/health')` yields exactly `GET/POST /health`. -/
theorem C9_witness :
    (analyze_python_code c9Content "app.py".data).apis_endpoints
      = ["GET/POST /health".data] := by
  rw [C9_flask_routes c9Content "app.py".data (by decide) (by decide)]
  decide

/-- C2 (amended): with a Flask marker and the endpoint header present, the
feature list contains "RESTful API endpoints" and the endpoint summary
feature — but the summary holds only the matched HTTP method names (up to
3, comma-joined): the single capture group of the findall pattern drops
the path, so no verbatim endpoint line is extracted. -/
theorem C2_methods_only (info ca : Str)
    (hf : "flask".data <:+: lower info ∨ "flask".data <:+: lower ca)
    (hhdr : "api endpoints detected".data <:+: lower ca)
    (hne : methodsFound ca ≠ []) :
    "RESTful API endpoints".data ∈ (extractRecord info ca).features ∧
    ("API endpoints: ".data ++ joinCommaSpace ((methodsFound ca).take 3))
      ∈ (extractRecord info ca).features := by
  have hflask : (hasSub "flask".data (lower info) || hasSub "flask".data (lower ca)) = true := by
    rcases hf with h | h
    · simp [(hasSub_iff _ _).mpr h]
    · simp [(hasSub_iff _ _).mpr h]
  have heph : hasSub "api endpoints detected".data (lower ca) = true :=
    (hasSub_iff _ _).mpr hhdr
  have hemp : (methodsFound ca).isEmpty = false := by
    cases h : methodsFound ca with
    | nil => exact absurd h hne
    | cons a l => rfl
  constructor
  · simp [extractRecord, hflask, heph, hemp, List.mem_append]
  · simp [extractRecord, hflask, heph, hemp, List.mem_append]

/-- C2 counterexample: metadata report `flask`, analysis report
`api endpoints detected` + the line `- GET /users`.  The computed feature
list is exactly the three listed features; the summary feature is
`API endpoints: GET` and no feature mentions `GET /users` — the endpoint
line is not extracted verbatim. -/
theorem C2_counterexample :
    (extractRecord "flask".data
        ("api endpoints detected\n- GET /users".data)).features =
      ["RESTful API endpoints".data, "Web-based user interface".data,
       "API endpoints: GET".data] ∧
    ∀ x ∈ (extractRecord "flask".data
        ("api endpoints detected\n- GET /users".data)).features,
      ¬ "GET /users".data <:+: x := by
  refine ⟨by decide, by decide⟩

/-- C2 witness: the amended statement at the round-trip inputs. -/
theorem C2_witness :
    "RESTful API endpoints".data ∈
      (extractRecord "flask".data
        ("api endpoints detected\n- GET /users".data)).features ∧
    ("API endpoints: ".data ++
      joinCommaSpace ((methodsFound ("api endpoints detected\n- GET /users".data)).take 3))
      ∈ (extractRecord "flask".data
          ("api endpoints detected\n- GET /users".data)).features :=
  C2_methods_only "flask".data ("api endpoints detected\n- GET /users".data)
    (Or.inl (by decide)) (by decide) (by decide)

set_option maxRecDepth 40000 in
/-- C10: for every input triple the assembler output contains the four
unconditional section headings (Installation, Usage, Contributing,
Contact), while the Features, API Endpoints and License sections are
absent when their source data is empty (shown at the empty inputs). -/
theorem C10_fixed_sections :
    (∀ r c f,
      "## Installation".data <:+: generate_smart_readme r c f ∧
      "## Usage".data <:+: generate_smart_readme r c f ∧
      "## Contributing".data <:+: generate_smart_readme r c f ∧
      "## Contact".data <:+: generate_smart_readme r c f) ∧
    (¬ "## Features".data <:+: generate_smart_readme [] [] [] ∧
     ¬ "## API Endpoints".data <:+: generate_smart_readme [] [] [] ∧
     ¬ "## License".data <:+: generate_smart_readme [] [] []) := by
  constructor
  · intro r c f
    unfold generate_smart_readme
    refine ⟨?_, ?_, ?_, ?_⟩
    · apply sub_app_left
      apply sub_app_left
      apply sub_app_left
      apply sub_app_left
      apply sub_app_right
      apply pre_sub
      unfold installChunk
      exact List.IsPrefix.trans (by decide) (List.prefix_append _ _)
    · apply sub_app_left
      apply sub_app_left
      apply sub_app_left
      apply sub_app_right
      apply pre_sub
      unfold usageChunk
      exact List.IsPrefix.trans (by decide) (List.prefix_append _ _)
    · apply sub_app_left
      apply sub_app_left
      apply sub_app_right
      exact pre_sub (by decide)
    · apply sub_app_right
      apply pre_sub
      unfold contactChunk
      exact List.IsPrefix.trans
        (List.IsPrefix.trans (by decide) (List.prefix_append _ _))
        (List.prefix_append _ _)
  · refine ⟨not_sub_of_hasSub (by decide), not_sub_of_hasSub (by decide),
      not_sub_of_hasSub (by decide)⟩

theorem pip_split {p₁ p₂ : Str} (h : p₁ ++ p₂ = "pip".data)
    (h1 : p₁ ≠ []) (h2 : p₂ ≠ []) :
    (p₁ = "p".data ∧ p₂ = "ip".data) ∨ (p₁ = "pi".data ∧ p₂ = "p".data) := by
  have h' : p₁ ++ p₂ = ['p', 'i', 'p'] := h.trans (by decide)
  rcases three_split h' h1 h2 with ⟨ha, hb⟩ | ⟨ha, hb⟩
  · exact Or.inl ⟨by rw [ha], by rw [hb]⟩
  · exact Or.inr ⟨by rw [ha], by rw [hb]⟩

set_option maxRecDepth 40000 in
theorem pip_not_in_js_section {u n : Str}
    (hu : ¬ "pip".data <:+: u) (hn : ¬ "pip".data <:+: n) :
    ¬ "pip".data <:+: "## Installation\n\n".data ++ jsInstall u n := by
  intro h
  have heq : "## Installation\n\n".data ++ jsInstall u n
      = ("## Installation\n\n".data ++ jsInstallPre) ++
        (u ++ (jsInstallMid ++ (n ++ jsInstallPost))) := by
    unfold jsInstall
    simp [List.append_assoc]
  rw [heq] at h
  rcases sub_app_cases h with h1 | h1 | ⟨p₁, p₂, hsp, hne1, hne2, hsuf, hpre⟩
  · exact (by decide :
      ¬ "pip".data <:+: ("## Installation\n\n".data ++ jsInstallPre)) h1
  · rcases sub_app_cases h1 with h2 | h2 | ⟨p₁, p₂, hsp, hne1, hne2, hsuf, hpre⟩
    · exact hu h2
    · rcases sub_app_cases h2 with h3 | h3 | ⟨p₁, p₂, hsp, hne1, hne2, hsuf, hpre⟩
      · exact (by decide : ¬ "pip".data <:+: jsInstallMid) h3
      · rcases sub_app_cases h3 with h4 | h4 | ⟨p₁, p₂, hsp, hne1, hne2, hsuf, hpre⟩
        · exact hn h4
        · exact (by decide : ¬ "pip".data <:+: jsInstallPost) h4
        · rcases pip_split hsp.symm hne1 hne2 with ⟨he1, he2⟩ | ⟨he1, he2⟩
          · rw [he2] at hpre
            exact (by decide : ¬ "ip".data <+: jsInstallPost) hpre
          · rw [he2] at hpre
            exact (by decide : ¬ "p".data <+: jsInstallPost) hpre
      · rcases pip_split hsp.symm hne1 hne2 with ⟨he1, he2⟩ | ⟨he1, he2⟩
        · rw [he1] at hsuf
          exact (by decide : ¬ "p".data <:+ jsInstallMid) hsuf
        · rw [he1] at hsuf
          exact (by decide : ¬ "pi".data <:+ jsInstallMid) hsuf
    · rcases pip_split hsp.symm hne1 hne2 with ⟨he1, he2⟩ | ⟨he1, he2⟩
      · rw [he2] at hpre
        exact not_pre_of_head (by decide) hpre
      · rw [he2] at hpre
        exact not_pre_of_head (by decide) hpre
  · rcases pip_split hsp.symm hne1 hne2 with ⟨he1, he2⟩ | ⟨he1, he2⟩
    · rw [he1] at hsuf
      exact (by decide :
        ¬ "p".data <:+ ("## Installation\n\n".data ++ jsInstallPre)) hsuf
    · rw [he1] at hsuf
      exact (by decide :
        ¬ "pi".data <:+ ("## Installation\n\n".data ++ jsInstallPre)) hsuf

set_option maxRecDepth 40000 in
/-- C3 (amended): with `python` in the metadata report, Installation always
contains a pip-install line, and the server-start snippet appears exactly
when the metadata report (not the analysis report) contains a
web-framework marker; with `javascript`/`node` and no `python`,
Installation contains `npm install` and — provided the interpolated URL
and repository name contain no `pip` themselves — no `pip` at all. -/
theorem C3_install_sections (r : Str) :
    ("python".data <:+: lower r →
      "pip install".data <:+: installChunk r ∧
      (("flask".data <:+: lower r ∨ "fastapi".data <:+: lower r) →
        "python app.py".data <:+: installChunk r ∧
        "uvicorn".data <:+: installChunk r)) ∧
    (¬ "python".data <:+: lower r →
      ("javascript".data <:+: lower r ∨ "node".data <:+: lower r) →
      "npm install".data <:+: installChunk r ∧
      (¬ "pip".data <:+: parsedUrl r → ¬ "pip".data <:+: parsedName r →
        ¬ "pip".data <:+: installChunk r)) := by
  constructor
  · intro hpy
    have hb : hasSub "python".data (lower r) = true := (hasSub_iff _ _).mpr hpy
    have hchunk : installChunk r = "## Installation\n\n".data ++
        (pyInstallBase (parsedUrl r) (parsedName r) ++
          (if hasSub "flask".data (lower r) || hasSub "fastapi".data (lower r) then
            serverRunSnippet else [])) := by
      unfold installChunk
      rw [if_pos hb]
    rw [hchunk]
    constructor
    · apply sub_app_right
      apply sub_app_left
      unfold pyInstallBase
      apply sub_app_right
      decide
    · intro hweb
      have hwb : (hasSub "flask".data (lower r) ||
          hasSub "fastapi".data (lower r)) = true := by
        rcases hweb with h | h
        · simp [(hasSub_iff _ _).mpr h]
        · simp [(hasSub_iff _ _).mpr h]
      rw [hwb, if_pos rfl]
      constructor
      · apply sub_app_right
        apply sub_app_right
        decide
      · apply sub_app_right
        apply sub_app_right
        decide
  · intro hnpy hjs
    have hb : hasSub "python".data (lower r) = false := hasSub_false hnpy
    have hjsb : (hasSub "javascript".data (lower r) ||
        hasSub "node".data (lower r)) = true := by
      rcases hjs with h | h
      · simp [(hasSub_iff _ _).mpr h]
      · simp [(hasSub_iff _ _).mpr h]
    have hchunk : installChunk r = "## Installation\n\n".data ++
        jsInstall (parsedUrl r) (parsedName r) := by
      unfold installChunk
      rw [hb, hjsb, if_neg (by decide), if_pos rfl]
    rw [hchunk]
    constructor
    · apply sub_app_right
      unfold jsInstall
      apply sub_app_right
      decide
    · intro hu hn
      exact pip_not_in_js_section hu hn

set_option maxRecDepth 40000 in
/-- C3 counterexample: metadata report `python`, analysis report `flask`.
The claim's premises hold (the metadata mentions python, the analysis
report carries the web-framework marker), the rendered Installation
section has the pip line but no server-start line: the code checks the
metadata report, not the analysis report, for the framework marker. -/
theorem C3_counterexample :
    "python".data <:+: lower "python".data ∧
    "flask".data <:+: lower "flask".data ∧
    "pip install".data <:+: installChunk "python".data ∧
    ¬ "python app.py".data <:+: installChunk "python".data ∧
    ¬ "uvicorn".data <:+: installChunk "python".data := by
  refine ⟨by decide, by decide, sub_of_hasSub (by decide),
    not_sub_of_hasSub (by decide), not_sub_of_hasSub (by decide)⟩

/-- C3 witness: the amended statement at concrete metadata reports. -/
theorem C3_witness :
    "pip install".data <:+: installChunk "python flask".data ∧
    "python app.py".data <:+: installChunk "python flask".data ∧
    "npm install".data <:+: installChunk "node".data ∧
    ¬ "pip".data <:+: installChunk "node".data := by
  have h1 := (C3_install_sections "python flask".data).1 (by decide)
  have h2 := (C3_install_sections "node".data).2 (by decide) (Or.inr (by decide))
  exact ⟨h1.1, (h1.2 (Or.inl (by decide))).1, h2.1, h2.2 (by decide) (by decide)⟩

end RG
